import Mathlib

/-!
Verification of the `smol-potat` attribute macros (src/smol-potat-macro/src/lib.rs).

The repository provides three procedural macros — `main`, `test`, `bench` —
each of which rewrites an annotated async function into a synchronous wrapper.
We embed the macro logic shallowly: the parsed function item, the attribute
arguments, and the produced token stream are modelled as explicit data types,
and each macro becomes a total Lean function from those inputs to a result
that is either a panic, a `compile_error!` diagnostic, or a generated outer
function.

Source spans are modelled as opaque natural-number identifiers; the span
value `0` is reserved for `Span::call_site()` (the span quote/proc-macro2
attaches to tokens it fabricates, e.g. the string literal produced by
`ToTokens for str`, and the span of an empty token stream).
-/

namespace SmolPotat

/-- A source span identifier (opaque). -/
abbrev Span := Nat

/-- The call-site span, produced by fabricated tokens (`Span::call_site()`). -/
def callSite : Span := 0

/-- A `syn::Lit` as it appears as the value of a name/value attribute
argument: either an integer literal (carrying the mathematical value of its
base-10 digits) or any other literal kind. Each carries its span. -/
inductive Lit where
  | int (value : Nat) (span : Span)
  | other (span : Span)
deriving DecidableEq

/-- The span of a literal. -/
def Lit.span : Lit → Span
  | .int _ s => s
  | .other s => s

/-- A `syn::MetaNameValue`: one `key = value` attribute argument.
`pathIdent` models `namevalue.path.get_ident()` — `none` when the path is
not a single identifier. `keySpan` is the span of the key token; `span` is
the span of the whole pair (`namevalue.span()`). -/
structure MetaNameValue where
  pathIdent : Option String
  keySpan : Span
  lit : Lit
  span : Span
deriving DecidableEq

/-- Rust's `str::to_lowercase` restricted to the characters that can occur
in an identifier key: character-wise ASCII lowercasing. -/
def lowerString (s : String) : String :=
  String.mk (s.data.map Char.toLower)

/-- A `syn::NestedMeta` attribute argument: either a name/value pair or any
other shape (bare path, nested list, bare literal), carrying its span. -/
inductive NestedMeta where
  | nameValue (nv : MetaNameValue)
  | other (span : Span)
deriving DecidableEq

/-- The parsed `syn::ItemFn`: the fields of the annotated function that the
macros read. Attribute, parameter, type and body tokens are opaque strings;
`vis` is the visibility qualifier (`none` = inherited visibility). -/
structure FnDecl where
  attrs : List String
  vis : Option String
  isAsync : Bool
  name : String
  inputs : List String
  ret : String
  body : String
  span : Span
  nameSpan : Span
  inputsSpan : Span
deriving DecidableEq

/-- The inner `async fn` emitted inside a generated wrapper
(`#(#attrs)* async fn main(#inputs) #ret { #body }`). -/
structure InnerFn where
  attrs : List String
  name : String
  inputs : List String
  ret : String
  body : String
deriving DecidableEq

/-- The body shape of a generated outer function, one constructor per
`quote!` template in the source:
* `fixedPool inner num` — `main` with `threads = num` resolved: builds one
  shared `Executor`, one unbounded shutdown channel, runs
  `.each(0..num, |_| block_on(ex.run(shutdown.recv())))` worker threads and
  drives `inner` on the calling thread inside `.finish(...)`;
* `autoPool inner` — `main` under the `auto` feature with no resolved thread
  count: same protocol with `num_cpus::get().max(1)` workers;
* `blockOnInner inner` — `main` without the `auto` feature and no resolved
  thread count: `smol_potat::block_on(async { main().await })`;
* `blockOnBlock body` — `test`: `smol::block_on(async { #body })`, the
  original body inlined with no inner function;
* `benchIter body` — `bench`:
  `let _ = b.iter(|| smol::block_on(async { #body }));`. -/
inductive OuterBody where
  | fixedPool (inner : InnerFn) (num : Nat)
  | autoPool (inner : InnerFn)
  | blockOnInner (inner : InnerFn)
  | blockOnBlock (body : String)
  | benchIter (body : String)
deriving DecidableEq

/-- A generated outer function: attributes emitted on it, its visibility
tokens (`none` when the template emits no visibility qualifier), name,
parameter tokens, return type and body shape. -/
structure OuterFn where
  attrs : List String
  vis : Option String
  name : String
  params : List String
  ret : String
  body : OuterBody
deriving DecidableEq

/-- The outcome of running one macro expansion: a panic (an `unwrap` on a
failed parse), a `compile_error!` diagnostic with message and span, or a
generated replacement function. -/
inductive MacroResult where
  | panicked
  | error (msg : String) (span : Span)
  | output (f : OuterFn)
deriving DecidableEq

/-- `syn`'s `LitInt::base10_parse::<u32>`: succeeds exactly when the value
fits in an unsigned 32-bit integer. -/
def base10ParseU32 (value : Nat) : Option Nat :=
  if value < 2 ^ 32 then some value else none

/-- The outcome of the attribute-argument loop in `main`: the resolved
`threads` option, an early-returned diagnostic, or a panic from
`base10_parse(...).unwrap()`. -/
inductive ArgsResult where
  | ok (threads : Option Nat)
  | err (msg : String) (span : Span)
  | panicked
deriving DecidableEq

/-- The literal string passed to `compile_error!` for an unknown attribute
key. `compile_error!` performs no formatting, so the `\x7b\x7d` placeholder
is part of the emitted message verbatim. -/
def unknownPairMsg : String :=
  "Unknown attribute pair \x7b\x7d is specified; expected: `threads`"

/-- The `for arg in args` loop of `main` (lines 60–96 of the source),
threading the mutable `threads` variable. Errors return immediately; a
`threads` integer parses via `base10_parse::<u32>().unwrap()` (panicking on
overflow) and only overwrites the accumulator when the value exceeds 1; the
unknown-key diagnostic is spanned by `name.span()` where `name` is a plain
`&str`, i.e. the call site. -/
def processArgs (threads : Option Nat) : List NestedMeta → ArgsResult
  | [] => .ok threads
  | .other s :: _ => .err "Unknown attribute inside the macro" s
  | .nameValue nv :: rest =>
    match nv.pathIdent with
    | none => .err "Must have specified ident" callSite
    | some key =>
      if lowerString key = "threads" then
        match nv.lit with
        | .int value _ =>
          match base10ParseU32 value with
          | none => .panicked
          | some num => processArgs (if num > 1 then some num else threads) rest
        | .other _ => .err "threads argument must be an int" nv.span
      else
        .err unknownPairMsg callSite

/-- The `main` attribute macro (entry-point mode). `auto` models the
`auto` cargo feature flag selected by `#[cfg(feature = "auto")]`. Mirrors
the source order exactly: the argument loop runs first, then the
`name != "main"` check, then the `asyncness` check, then synthesis. -/
def mainMacro (auto : Bool) (attr : List NestedMeta) (input : FnDecl) : MacroResult :=
  match processArgs none attr with
  | .err m s => .error m s
  | .panicked => .panicked
  | .ok threads =>
    if input.name ≠ "main" then
      .error "only the main function can be tagged with #[smol::main]" input.nameSpan
    else if ¬ input.isAsync then
      .error "the async keyword is missing from the function declaration" input.span
    else
      match threads with
      | some num =>
        .output { attrs := [], vis := none, name := "main", params := []
                  ret := input.ret
                  body := .fixedPool { attrs := input.attrs, name := "main"
                                       inputs := input.inputs, ret := input.ret
                                       body := input.body } num }
      | none =>
        if auto then
          .output { attrs := [], vis := none, name := "main", params := []
                    ret := input.ret
                    body := .autoPool { attrs := input.attrs, name := "main"
                                        inputs := input.inputs, ret := input.ret
                                        body := input.body } }
        else
          .output { attrs := [], vis := none, name := "main", params := []
                    ret := input.ret
                    body := .blockOnInner { attrs := input.attrs, name := "main"
                                            inputs := input.inputs, ret := input.ret
                                            body := input.body } }

/-- The `test` attribute macro. Attribute arguments are ignored (`_attr`).
The generated wrapper is `#[test] #(#attrs)* fn #name() #ret
{ smol::block_on(async { #body }) }`: the attributes land on the outer
function and the body is inlined with no inner async function. -/
def testMacro (input : FnDecl) : MacroResult :=
  if ¬ input.isAsync then
    .error "the async keyword is missing from the function declaration" input.span
  else
    .output { attrs := "#[test]" :: input.attrs, vis := none, name := input.name
              params := [], ret := input.ret, body := .blockOnBlock input.body }

/-- The `bench` attribute macro. After the asyncness check it rejects a
non-empty parameter list, spanned at the parameter list; the generated
wrapper is `#[bench] #(#attrs)* fn #name(b: &mut test::Bencher) #ret
{ let _ = b.iter(|| smol::block_on(async { #body })); }`. -/
def benchMacro (input : FnDecl) : MacroResult :=
  if ¬ input.isAsync then
    .error "the async keyword is missing from the function declaration" input.span
  else if input.inputs ≠ [] then
    .error "async benchmarks don't take any arguments" input.inputsSpan
  else
    .output { attrs := "#[bench]" :: input.attrs, vis := none, name := input.name
              params := ["b: &mut test::Bencher"], ret := input.ret
              body := .benchIter input.body }

/-- Number of worker threads the generated outer body spawns, given the
runtime CPU count `numCpus` (the auto template spawns
`num_cpus::get().max(1)` workers; the other templates spawn none). -/
def workerCount (numCpus : Nat) : OuterBody → Nat
  | .fixedPool _ num => num
  | .autoPool _ => max numCpus 1
  | .blockOnInner _ => 0
  | .blockOnBlock _ => 0
  | .benchIter _ => 0

/-- The inner async function contained in a generated outer body, when the
template emits one. -/
def innerFnOf : OuterBody → Option InnerFn
  | .fixedPool i _ => some i
  | .autoPool i => some i
  | .blockOnInner i => some i
  | .blockOnBlock _ => none
  | .benchIter _ => none

/-!
Runtime protocol of the pooled template. The `fixedPool` body synthesized by
`main` executes, at run time, the following concurrent protocol (the channel
and join primitives are external collaborators, modelled at the interface
the spec gives them: an unbounded channel's `recv()` on an empty channel
completes exactly when the last sender is dropped, and
`Parallel::finish` returns only after the caller closure has returned and
every spawned thread has been joined):

* the calling thread runs `let r = main().await; drop(signal); r` — the
  result is captured, then the shutdown sender is dropped;
* each of the `num` worker threads runs
  `block_on(ex.run(shutdown.recv()))`, which returns only once
  `shutdown.recv()` resolves, i.e. only after the sender was dropped;
* `finish` joins all workers before the outer `fn main` returns `r`.

We model one execution as an interleaving of atomic events over a state
recording which of these steps have happened.
-/

/-- Observable state of one run of the `fixedPool` protocol: whether the
body's result has been captured on the calling thread, whether the shutdown
sender has been dropped, which workers have exited (one flag per spawned
worker), and whether the outer function has returned. -/
structure PoolState where
  captured : Bool
  signalDropped : Bool
  exited : List Bool
  returned : Bool
deriving DecidableEq

/-- Initial protocol state for a pool of `n` workers: nothing has happened
and all `n` workers are running. -/
def initState (n : Nat) : PoolState :=
  { captured := false, signalDropped := false
    exited := List.replicate n false, returned := false }

/-- All workers have exited (the join in `Parallel::finish` can complete). -/
def PoolState.allExited (s : PoolState) : Bool :=
  s.exited.all (fun b => b)

/-- An atomic event of the generated pooled `main`. -/
inductive PoolEvent where
  | capture
  | dropSignal
  | workerExit (i : Nat)
  | ret
deriving DecidableEq

/-- One atomic step of the protocol; `none` when the event is not enabled in
the given state. Guards come from the generated code's program order and the
collaborator interfaces: `dropSignal` is sequenced after `capture` on the
calling thread; `workerExit i` requires the shutdown sender to have been
dropped (that is the only way `shutdown.recv()` resolves); `ret` requires
the caller closure to have finished (signal dropped) and every worker to
have been joined. -/
def step (s : PoolState) : PoolEvent → Option PoolState
  | .capture =>
    if s.captured then none
    else some { s with captured := true }
  | .dropSignal =>
    if s.captured ∧ ¬ s.signalDropped then some { s with signalDropped := true }
    else none
  | .workerExit i =>
    if h : i < s.exited.length then
      if s.signalDropped ∧ s.exited.get ⟨i, h⟩ = false then
        some { s with exited := s.exited.set i true }
      else none
    else none
  | .ret =>
    if s.signalDropped ∧ s.allExited ∧ ¬ s.returned then
      some { s with returned := true }
    else none

/-- Run a sequence of events from a state; `none` if any event is disabled
where it occurs. -/
def runEvents (s : PoolState) : List PoolEvent → Option PoolState
  | [] => some s
  | e :: es =>
    match step s e with
    | none => none
    | some s2 => runEvents s2 es

/-- The protocol ordering invariant: the shutdown signal is dropped only
after the result is captured; a worker has exited only after the signal was
dropped; the function has returned only after the signal was dropped and
every worker exited. -/
def PoolInv (s : PoolState) : Prop :=
  (s.signalDropped = true → s.captured = true) ∧
  (∀ i : Fin s.exited.length, s.exited.get i = true → s.signalDropped = true) ∧
  (s.returned = true → s.signalDropped = true ∧ s.allExited = true)

theorem poolInv_init (n : Nat) : PoolInv (initState n) := by
  refine ⟨by simp [initState], ?_, by simp [initState]⟩
  intro i h
  simp [initState] at h

theorem length_step {s s' : PoolState} {e : PoolEvent} (hs : step s e = some s') :
    s'.exited.length = s.exited.length := by
  cases e with
  | capture =>
    simp only [step] at hs
    split at hs
    · exact absurd hs (by simp)
    · cases hs; rfl
  | dropSignal =>
    simp only [step] at hs
    split at hs
    · cases hs; rfl
    · exact absurd hs (by simp)
  | workerExit i =>
    simp only [step] at hs
    split at hs
    · split at hs
      · cases hs; simp
      · exact absurd hs (by simp)
    · exact absurd hs (by simp)
  | ret =>
    simp only [step] at hs
    split at hs
    · cases hs; rfl
    · exact absurd hs (by simp)

theorem poolInv_step {s s' : PoolState} {e : PoolEvent} (hinv : PoolInv s)
    (hs : step s e = some s') : PoolInv s' := by
  obtain ⟨h1, h2, h3⟩ := hinv
  cases e with
  | capture =>
    simp only [step] at hs
    split at hs
    · exact absurd hs (by simp)
    · cases hs
      exact ⟨fun _ => rfl, h2, fun hr => (h3 hr).imp id id⟩
  | dropSignal =>
    simp only [step] at hs
    split at hs
    · cases hs
      exact ⟨fun _ => ‹_ ∧ _›.1, fun i _ => rfl, fun hr => ⟨rfl, (h3 hr).2⟩⟩
    · exact absurd hs (by simp)
  | workerExit i =>
    simp only [step] at hs
    split at hs
    case isTrue h =>
      split at hs
      case isTrue hg =>
        cases hs
        refine ⟨fun _ => h1 hg.1, fun j _ => hg.1, fun hr => ?_⟩
        exfalso
        have hall : s.allExited = true := (h3 hr).2
        have hmem := List.get_mem s.exited i h
        have := List.all_eq_true.mp hall _ hmem
        rw [hg.2] at this
        exact Bool.false_ne_true this
      case isFalse => exact absurd hs (by simp)
    case isFalse => exact absurd hs (by simp)
  | ret =>
    simp only [step] at hs
    split at hs
    case isTrue hg =>
      cases hs
      exact ⟨h1, h2, fun _ => ⟨hg.1, hg.2.1⟩⟩
    case isFalse => exact absurd hs (by simp)

theorem poolInv_runEvents {s s' : PoolState} {tr : List PoolEvent} (hinv : PoolInv s)
    (hr : runEvents s tr = some s') :
    PoolInv s' ∧ s'.exited.length = s.exited.length := by
  induction tr generalizing s with
  | nil =>
    simp only [runEvents] at hr
    cases hr
    exact ⟨hinv, rfl⟩
  | cons e es ih =>
    simp only [runEvents] at hr
    cases hstep : step s e with
    | none => rw [hstep] at hr; exact absurd hr (by simp)
    | some s2 =>
      rw [hstep] at hr
      obtain ⟨hi, hl⟩ := ih (poolInv_step hinv hstep) hr
      exact ⟨hi, hl.trans (length_step hstep)⟩

/-! ### Concrete fixtures used by witnesses and counterexamples -/

/-- A `threads = v` attribute argument with key span `ks`, literal span `ls`
and whole-pair span `ps`. -/
def threadsIntArg (v : Nat) (ks ls ps : Span) : NestedMeta :=
  .nameValue { pathIdent := some "threads", keySpan := ks, lit := .int v ls, span := ps }

/-- A well-shaped annotated entry point: `async fn main() -> std::io::Result<()>`. -/
def mainInput : FnDecl :=
  { attrs := ["#[allow(dead_code)]"], vis := none, isAsync := true, name := "main"
    inputs := [], ret := "-> std::io::Result<()>", body := "Ok(())"
    span := 10, nameSpan := 11, inputsSpan := 12 }

/-- The inner async function the `main` templates emit for `mainInput`. -/
def mainInner : InnerFn :=
  { attrs := mainInput.attrs, name := "main", inputs := mainInput.inputs
    ret := mainInput.ret, body := mainInput.body }

/-- Lowercasing the literal key `threads` is the identity. -/
theorem lowerString_threads : lowerString "threads" = "threads" := rfl

/-! ### Claims -/

/-- C1: for every valid entry-point input whose configuration resolves to
`Fixed(n)`, the synthesized output is the pooled template whose worker range
is `0..n` (exactly `n` worker threads polling the one shared executor), and
every interleaved execution of that template's shutdown protocol keeps the
ordering: the shutdown signal is dropped only after the body's result is
captured on the calling thread, a worker has exited only after the signal
was dropped, and the outer function has returned only after the signal was
dropped and all `n` workers have exited (been joined). -/
theorem c1_fixed_pool_protocol (auto : Bool) (args : List NestedMeta)
    (input : FnDecl) (n : Nat)
    (hargs : processArgs none args = .ok (some n))
    (hname : input.name = "main") (hasync : input.isAsync = true) :
    mainMacro auto args input =
      .output { attrs := [], vis := none, name := "main", params := []
                ret := input.ret
                body := .fixedPool { attrs := input.attrs, name := "main"
                                     inputs := input.inputs, ret := input.ret
                                     body := input.body } n } ∧
    (∀ c inner, workerCount c (OuterBody.fixedPool inner n) = n) ∧
    (∀ (tr : List PoolEvent) (s : PoolState), runEvents (initState n) tr = some s →
      s.exited.length = n ∧
      (s.signalDropped = true → s.captured = true) ∧
      (∀ i : Fin s.exited.length, s.exited.get i = true → s.signalDropped = true) ∧
      (s.returned = true → s.signalDropped = true ∧ s.allExited = true)) := by
  refine ⟨?_, fun c inner => rfl, fun tr s hr => ?_⟩
  · simp [mainMacro, hargs, hname, hasync]
  · obtain ⟨⟨h1, h2, h3⟩, hlen⟩ := poolInv_runEvents (poolInv_init n) hr
    exact ⟨by simpa [initState] using hlen, h1, h2, h3⟩

/-- C1 witness: the theorem applied to `threads = 4` on a well-shaped
`async fn main`. -/
theorem c1_fixed_pool_protocol_witness :
    processArgs none [threadsIntArg 4 0 1 2] = .ok (some 4) ∧
    (mainMacro false [threadsIntArg 4 0 1 2] mainInput =
      .output { attrs := [], vis := none, name := "main", params := []
                ret := mainInput.ret, body := .fixedPool mainInner 4 } ∧
    (∀ c inner, workerCount c (OuterBody.fixedPool inner 4) = 4) ∧
    (∀ (tr : List PoolEvent) (s : PoolState), runEvents (initState 4) tr = some s →
      s.exited.length = 4 ∧
      (s.signalDropped = true → s.captured = true) ∧
      (∀ i : Fin s.exited.length, s.exited.get i = true → s.signalDropped = true) ∧
      (s.returned = true → s.signalDropped = true ∧ s.allExited = true))) :=
  ⟨by decide,
   c1_fixed_pool_protocol false [threadsIntArg 4 0 1 2] mainInput 4 (by decide) rfl rfl⟩

/-- C2 counterexample: with automatic sizing enabled (`auto` feature),
`threads = 0` does not resolve to the `Default` path — the synthesized body
is the auto pool, which spawns `max(num_cpus, 1) ≥ 1` worker threads, never
zero, contradicting the claim that a `threads` value of `0` always yields
zero workers. -/
theorem c2_auto_threads0_cex :
    mainMacro true [threadsIntArg 0 0 1 2] mainInput =
      .output { attrs := [], vis := none, name := "main", params := []
                ret := mainInput.ret, body := .autoPool mainInner } ∧
    (∀ c, 1 ≤ workerCount c (OuterBody.autoPool mainInner)) ∧
    workerCount 4 (OuterBody.autoPool mainInner) = 4 :=
  ⟨by decide, fun c => le_max_right c 1, rfl⟩

/-- C2 (amended): with automatic sizing disabled, every argument list that
resolves to no thread count — none at all, or `threads` values of `0`/`1`,
which are not errors — takes the `Default` path: the synthesized output
spawns zero worker threads and drives the inner async body once on the
calling thread via the blocking-drive call. (With automatic sizing enabled
such inputs take the auto-pool path instead, see the counterexample.) -/
theorem c2_default_single_thread (args : List NestedMeta) (input : FnDecl)
    (hargs : processArgs none args = .ok none)
    (hname : input.name = "main") (hasync : input.isAsync = true) :
    mainMacro false args input =
      .output { attrs := [], vis := none, name := "main", params := []
                ret := input.ret
                body := .blockOnInner { attrs := input.attrs, name := "main"
                                        inputs := input.inputs, ret := input.ret
                                        body := input.body } } ∧
    (∀ c inner, workerCount c (OuterBody.blockOnInner inner) = 0) ∧
    (∀ v ks ls ps, v ≤ 1 → processArgs none [threadsIntArg v ks ls ps] = .ok none) := by
  refine ⟨?_, fun c inner => rfl, fun v ks ls ps hv => ?_⟩
  · simp [mainMacro, hargs, hname, hasync]
  · have h32 : v < 4294967296 := by omega
    have hgt : ¬ 1 < v := by omega
    simp [processArgs, threadsIntArg, lowerString_threads, base10ParseU32, h32, hgt]

/-- C2 witness: the amended theorem applied to `threads = 1` on a
well-shaped `async fn main`. -/
theorem c2_default_single_thread_witness :
    processArgs none [threadsIntArg 1 0 1 2] = .ok none ∧
    (mainMacro false [threadsIntArg 1 0 1 2] mainInput =
      .output { attrs := [], vis := none, name := "main", params := []
                ret := mainInput.ret, body := .blockOnInner mainInner } ∧
    (∀ c inner, workerCount c (OuterBody.blockOnInner inner) = 0) ∧
    (∀ v ks ls ps, v ≤ 1 → processArgs none [threadsIntArg v ks ls ps] = .ok none)) :=
  ⟨by decide,
   c2_default_single_thread [threadsIntArg 1 0 1 2] mainInput (by decide) rfl rfl⟩

/-- C3 counterexample: for the repeated arguments `threads = 4, threads = 0`
the resolved configuration is `Fixed(4)`, not the `Default` the claim's
"last occurrence alone" rule would demand (the last value `0` is not greater
than 1, yet the prior `Fixed(4)` is kept rather than reset). -/
theorem c3_last_occurrence_cex :
    mainMacro false [threadsIntArg 4 0 1 2, threadsIntArg 0 3 4 5] mainInput =
      .output { attrs := [], vis := none, name := "main", params := []
                ret := mainInput.ret, body := .fixedPool mainInner 4 } ∧
    workerCount 1 (OuterBody.fixedPool mainInner 4) = 4 :=
  ⟨by decide, rfl⟩

/-- Recognizes a `threads = <int>` argument whose value fits in `u32`. -/
def isThreadsIntArg : NestedMeta → Bool
  | .nameValue ⟨some k, _, .int v _, _⟩ =>
    if lowerString k = "threads" ∧ v < 2 ^ 32 then true else false
  | _ => false

/-- The integer values carried by the name/value integer arguments, in
order. -/
def threadsValuesOf : List NestedMeta → List Nat
  | [] => []
  | .nameValue ⟨_, _, .int v _, _⟩ :: rest => v :: threadsValuesOf rest
  | _ :: rest => threadsValuesOf rest

/-- The accumulation the source loop performs on `threads` values: each
value greater than 1 overwrites the accumulator, any other value leaves it
unchanged. -/
def threadsFold (t : Option Nat) (vs : List Nat) : Option Nat :=
  vs.foldl (fun acc v => if v > 1 then some v else acc) t

/-- C3 (amended): when every argument is a `threads = <int>` pair (values in
`u32` range), resolution never errors — repetition included — and the
resolved configuration is the fold of the values: `Fixed(n)` for the last
occurrence whose value exceeds 1 (values of `0`/`1` leave the previous
resolution in place rather than resetting it), `Default` when no value
exceeds 1. -/
theorem c3_threads_accumulation (t : Option Nat) (args : List NestedMeta)
    (h : args.all isThreadsIntArg = true) :
    processArgs t args = .ok (threadsFold t (threadsValuesOf args)) := by
  induction args generalizing t with
  | nil => rfl
  | cons a rest ih =>
    rw [List.all_cons, Bool.and_eq_true] at h
    obtain ⟨ha, hrest⟩ := h
    cases a with
    | other s => simp [isThreadsIntArg] at ha
    | nameValue nv =>
      obtain ⟨pi, ks, l, ps⟩ := nv
      cases pi with
      | none => simp [isThreadsIntArg] at ha
      | some k =>
        cases l with
        | other ls => simp [isThreadsIntArg] at ha
        | int v ls =>
          simp only [isThreadsIntArg] at ha
          split at ha
          case isTrue hp =>
            obtain ⟨hk, hv⟩ := hp
            have hb : base10ParseU32 v = some v := by
              simp only [base10ParseU32]
              rw [if_pos hv]
            simp only [processArgs, hk, eq_self_iff_true, if_true, hb, threadsValuesOf,
              threadsFold, List.foldl_cons]
            exact ih _ hrest
          case isFalse => exact absurd ha (by simp)

/-- C3 witness: the amended theorem applied to `threads = 4, threads = 0`,
whose fold resolves to `Fixed(4)`. -/
theorem c3_threads_accumulation_witness :
    ([threadsIntArg 4 0 1 2, threadsIntArg 0 3 4 5].all isThreadsIntArg = true) ∧
    processArgs none [threadsIntArg 4 0 1 2, threadsIntArg 0 3 4 5] =
      .ok (threadsFold none (threadsValuesOf [threadsIntArg 4 0 1 2, threadsIntArg 0 3 4 5])) ∧
    threadsFold none (threadsValuesOf [threadsIntArg 4 0 1 2, threadsIntArg 0 3 4 5]) = some 4 :=
  ⟨by decide, c3_threads_accumulation none _ (by decide), by decide⟩

/-- A non-async function named `foo` (fails both shape rules). -/
def fooNonAsync : FnDecl :=
  { attrs := [], vis := none, isAsync := false, name := "foo"
    inputs := [], ret := "-> ()", body := "()"
    span := 20, nameSpan := 21, inputsSpan := 22 }

/-- A `threads = "abc"` pair (non-integer value): key span 1, value span 2,
whole-pair span 3. -/
def threadsNonIntNV : MetaNameValue :=
  { pathIdent := some "threads", keySpan := 1, lit := .other 2, span := 3 }

/-- An unknown-key pair `Foo = 1`: key span 5, value span 6, pair span 7. -/
def fooPairNV : MetaNameValue :=
  { pathIdent := some "Foo", keySpan := 5, lit := .int 1 6, span := 7 }

/-- C4 counterexample: for a function that is neither async nor named
`main`, annotated with the configuration error `threads = "abc"`, the single
emitted diagnostic is the configuration error, not a shape-validation error
— the argument loop runs before either shape check. -/
theorem c4_resolver_first_cex :
    mainMacro false [.nameValue threadsNonIntNV] fooNonAsync =
      .error "threads argument must be an int" 3 ∧
    ("threads argument must be an int" ≠
      "the async keyword is missing from the function declaration") ∧
    ("threads argument must be an int" ≠
      "only the main function can be tagged with #[smol::main]") :=
  ⟨by decide, by decide, by decide⟩

/-- C4 (amended): the attribute-argument loop runs before any shape
validation, so whenever argument resolution fails, its diagnostic is the one
emitted — for every function descriptor, shape-valid or not. -/
theorem c4_resolver_error_first (auto : Bool) (args : List NestedMeta)
    (input : FnDecl) (m : String) (s : Span)
    (h : processArgs none args = .err m s) :
    mainMacro auto args input = .error m s := by
  simp [mainMacro, h]

/-- C4 witness: the amended theorem applied to a non-async, non-`main`
function carrying `threads = "abc"`. -/
theorem c4_resolver_error_first_witness :
    processArgs none [.nameValue threadsNonIntNV] =
      .err "threads argument must be an int" 3 ∧
    mainMacro false [.nameValue threadsNonIntNV] fooNonAsync =
      .error "threads argument must be an int" 3 :=
  ⟨by decide,
   c4_resolver_error_first false [.nameValue threadsNonIntNV] fooNonAsync
     "threads argument must be an int" 3 (by decide)⟩

/-- C5 counterexample: for a function that is both non-async and named other
than `main` (with no attribute arguments), the emitted diagnostic is the
only-main-function error at the name token — the name check runs before the
async check, contrary to the claimed rule order. -/
theorem c5_name_checked_first_cex :
    mainMacro false [] fooNonAsync =
      .error "only the main function can be tagged with #[smol::main]" 21 ∧
    fooNonAsync.isAsync = false ∧
    fooNonAsync.nameSpan = 21 ∧
    ("only the main function can be tagged with #[smol::main]" ≠
      "the async keyword is missing from the function declaration") :=
  ⟨by decide, rfl, rfl, by decide⟩

/-- C5 (amended): in entry-point mode the name check runs first: whenever
the arguments resolve and the function is not named `main`, the
only-main-function diagnostic is reported at the name token, whether or not
the function is async. -/
theorem c5_name_check_precedes_async (auto : Bool) (args : List NestedMeta)
    (input : FnDecl) (t : Option Nat)
    (hargs : processArgs none args = .ok t) (hname : input.name ≠ "main") :
    mainMacro auto args input =
      .error "only the main function can be tagged with #[smol::main]" input.nameSpan := by
  simp [mainMacro, hargs, hname]

/-- C5 witness: the amended theorem applied to a non-async function named
`foo`. -/
theorem c5_name_check_precedes_async_witness :
    processArgs none ([] : List NestedMeta) = .ok none ∧
    fooNonAsync.name ≠ "main" ∧
    mainMacro false [] fooNonAsync =
      .error "only the main function can be tagged with #[smol::main]" fooNonAsync.nameSpan :=
  ⟨rfl, by decide,
   c5_name_check_precedes_async false [] fooNonAsync none rfl (by decide)⟩

/-- C6 counterexample: the non-integer-`threads` diagnostic is spanned by
`namevalue.span()` — the whole `threads = "abc"` pair (span 3) — not by the
value token (span 2) as claimed. -/
theorem c6_value_span_cex :
    mainMacro false [.nameValue threadsNonIntNV] mainInput =
      .error "threads argument must be an int" 3 ∧
    (threadsNonIntNV.lit).span = 2 ∧
    threadsNonIntNV.span = 3 ∧
    (3 : Span) ≠ 2 :=
  ⟨by decide, rfl, rfl, by decide⟩

/-- C6 (amended): a `threads` key whose value is not an integer literal
makes the expansion fail with the diagnostic "threads argument must be an
int" located at the whole key/value pair, and no replacement code is
emitted. -/
theorem c6_threads_non_int (auto : Bool) (nv : MetaNameValue)
    (rest : List NestedMeta) (input : FnDecl) (k : String) (ls : Span)
    (hk : nv.pathIdent = some k) (hth : lowerString k = "threads")
    (hl : nv.lit = .other ls) :
    mainMacro auto (.nameValue nv :: rest) input =
      .error "threads argument must be an int" nv.span := by
  simp [mainMacro, processArgs, hk, hth, hl]

/-- C6 witness: the amended theorem applied to `threads = "abc"` on a
well-shaped `async fn main`. -/
theorem c6_threads_non_int_witness :
    threadsNonIntNV.pathIdent = some "threads" ∧
    lowerString "threads" = "threads" ∧
    threadsNonIntNV.lit = .other 2 ∧
    mainMacro false [.nameValue threadsNonIntNV] mainInput =
      .error "threads argument must be an int" threadsNonIntNV.span :=
  ⟨rfl, rfl, rfl,
   c6_threads_non_int false threadsNonIntNV [] mainInput "threads" 2 rfl rfl rfl⟩

/-- C7 counterexample: for the unknown key `Foo` the emitted diagnostic is
the fixed literal string with an unsubstituted placeholder (capital
"Unknown", `\x7b\x7d` verbatim, backquotes around `threads`), not the
claimed message naming the key; and it is spanned at the call site (the
lowercased key is a plain `&str`, whose token span is fabricated), not at
the key token (span 5). -/
theorem c7_unknown_key_cex :
    mainMacro false [.nameValue fooPairNV] mainInput = .error unknownPairMsg callSite ∧
    (unknownPairMsg ≠ "unknown attribute pair Foo is specified; expected: threads") ∧
    fooPairNV.keySpan = 5 ∧
    callSite ≠ 5 :=
  ⟨by decide, by decide, rfl, by decide⟩

/-- C7 (amended): for every name/value argument whose key does not
case-insensitively normalize to `threads`, the expansion fails with the
fixed diagnostic string "Unknown attribute pair \x7b\x7d is specified;
expected: `threads`" (the placeholder is not substituted), located at the
call site rather than at the key token. -/
theorem c7_unknown_key (auto : Bool) (nv : MetaNameValue)
    (rest : List NestedMeta) (input : FnDecl) (k : String)
    (hk : nv.pathIdent = some k) (hth : lowerString k ≠ "threads") :
    mainMacro auto (.nameValue nv :: rest) input = .error unknownPairMsg callSite := by
  simp [mainMacro, processArgs, hk, hth]

/-- C7 witness: the amended theorem applied to the unknown key `Foo`. -/
theorem c7_unknown_key_witness :
    fooPairNV.pathIdent = some "Foo" ∧
    lowerString "Foo" ≠ "threads" ∧
    mainMacro false [.nameValue fooPairNV] mainInput = .error unknownPairMsg callSite :=
  ⟨rfl, by decide,
   c7_unknown_key false fooPairNV [] mainInput "Foo" rfl (by decide)⟩

/-- A `pub async fn my_test()` input for the test macro. -/
def pubTestInput : FnDecl :=
  { attrs := ["#[ignore]"], vis := some "pub", isAsync := true, name := "my_test"
    inputs := [], ret := "-> ()", body := "assert!(true)"
    span := 30, nameSpan := 31, inputsSpan := 32 }

/-- The wrapper the test macro generates for `pubTestInput`. -/
def pubTestOut : OuterFn :=
  { attrs := ["#[test]", "#[ignore]"], vis := none, name := "my_test", params := []
    ret := "-> ()", body := .blockOnBlock "assert!(true)" }

/-- The wrapper the main macro generates for `mainInput` with no arguments
and automatic sizing disabled. -/
def outDefault : OuterFn :=
  { attrs := [], vis := none, name := "main", params := [], ret := mainInput.ret
    body := .blockOnInner mainInner }

/-- An `async fn my_bench()` input for the bench macro. -/
def benchInput : FnDecl :=
  { attrs := [], vis := none, isAsync := true, name := "my_bench"
    inputs := [], ret := "", body := "black_box(1)"
    span := 40, nameSpan := 41, inputsSpan := 42 }

/-- The wrapper the bench macro generates for `benchInput`. -/
def benchOut : OuterFn :=
  { attrs := ["#[bench]"], vis := none, name := "my_bench"
    params := ["b: &mut test::Bencher"], ret := "", body := .benchIter "black_box(1)" }

/-- Inversion for successful `main` expansions: every generated outer
function has no attributes of its own, no visibility qualifier, name
`main`, no parameters, the input's return type, and contains an inner async
function carrying the input's attributes, parameters, return type and
body. -/
theorem mainMacro_output_inv {auto : Bool} {args : List NestedMeta}
    {input : FnDecl} {f : OuterFn} (h : mainMacro auto args input = .output f) :
    f.attrs = [] ∧ f.vis = none ∧ f.name = "main" ∧ f.params = [] ∧
    f.ret = input.ret ∧
    innerFnOf f.body =
      some { attrs := input.attrs, name := "main", inputs := input.inputs
             ret := input.ret, body := input.body } := by
  unfold mainMacro at h
  split at h
  · exact absurd h (by simp)
  · exact absurd h (by simp)
  · split at h
    · exact absurd h (by simp)
    · split at h
      · exact absurd h (by simp)
      · split at h
        · injection h with h
          subst h
          exact ⟨rfl, rfl, rfl, rfl, rfl, rfl⟩
        · split at h
          · injection h with h
            subst h
            exact ⟨rfl, rfl, rfl, rfl, rfl, rfl⟩
          · injection h with h
            subst h
            exact ⟨rfl, rfl, rfl, rfl, rfl, rfl⟩

/-- Inversion for successful `test` expansions: the generated wrapper is
determined by the input, with `#[test]` prepended to the pass-through
attributes on the outer function and the body inlined. -/
theorem testMacro_output_inv {input : FnDecl} {f : OuterFn}
    (h : testMacro input = .output f) :
    f = { attrs := "#[test]" :: input.attrs, vis := none, name := input.name
          params := [], ret := input.ret, body := .blockOnBlock input.body } := by
  unfold testMacro at h
  split at h
  · exact absurd h (by simp)
  · injection h with h
    exact h.symm

/-- Inversion for successful `bench` expansions. -/
theorem benchMacro_output_inv {input : FnDecl} {f : OuterFn}
    (h : benchMacro input = .output f) :
    f = { attrs := "#[bench]" :: input.attrs, vis := none, name := input.name
          params := ["b: &mut test::Bencher"], ret := input.ret
          body := .benchIter input.body } := by
  unfold benchMacro at h
  split at h
  · exact absurd h (by simp)
  · split at h
    · exact absurd h (by simp)
    · injection h with h
      exact h.symm

/-- C8 counterexample: a successful test-mode expansion produces no inner
async function at all — the original body is inlined into an async block
inside the outer function, and the pass-through attributes land on the
outer function — contradicting the claim that every mode emits an inner
async function carrying the original name, parameters, return type and
attributes. -/
theorem c8_inner_fn_cex :
    testMacro pubTestInput = .output pubTestOut ∧
    innerFnOf pubTestOut.body = none ∧
    pubTestOut.attrs = "#[test]" :: pubTestInput.attrs :=
  ⟨by decide, rfl, rfl⟩

/-- C8 (amended): only the entry-point mode emits an inner async function
(carrying the original attributes, parameters, return type and body, under
the name `main`) wrapped by an outer function with the original name and
return type; test and bench modes instead inline the original body into an
async block inside the outer wrapper and place the pass-through attributes
on the outer function. -/
theorem c8_wrapper_shapes :
    (∀ (auto : Bool) (args : List NestedMeta) (input : FnDecl) (f : OuterFn),
      mainMacro auto args input = .output f →
      f.name = "main" ∧ f.ret = input.ret ∧
      innerFnOf f.body =
        some { attrs := input.attrs, name := "main", inputs := input.inputs
               ret := input.ret, body := input.body }) ∧
    (∀ (input : FnDecl) (f : OuterFn), testMacro input = .output f →
      f.name = input.name ∧ f.ret = input.ret ∧
      f.attrs = "#[test]" :: input.attrs ∧
      f.body = .blockOnBlock input.body ∧ innerFnOf f.body = none) ∧
    (∀ (input : FnDecl) (f : OuterFn), benchMacro input = .output f →
      f.name = input.name ∧ f.ret = input.ret ∧
      f.attrs = "#[bench]" :: input.attrs ∧
      f.body = .benchIter input.body ∧ innerFnOf f.body = none) := by
  refine ⟨fun auto args input f h => ?_, fun input f h => ?_, fun input f h => ?_⟩
  · obtain ⟨_, _, h3, _, h5, h6⟩ := mainMacro_output_inv h
    exact ⟨h3, h5, h6⟩
  · rw [testMacro_output_inv h]
    exact ⟨rfl, rfl, rfl, rfl, rfl⟩
  · rw [benchMacro_output_inv h]
    exact ⟨rfl, rfl, rfl, rfl, rfl⟩

/-- C8 witness: the amended theorem applied to a default-path `main`
expansion, a test expansion, and a bench expansion. -/
theorem c8_wrapper_shapes_witness :
    (outDefault.name = "main" ∧ outDefault.ret = mainInput.ret ∧
      innerFnOf outDefault.body = some mainInner) ∧
    (pubTestOut.name = pubTestInput.name ∧ pubTestOut.ret = pubTestInput.ret ∧
      pubTestOut.attrs = "#[test]" :: pubTestInput.attrs ∧
      pubTestOut.body = .blockOnBlock pubTestInput.body ∧
      innerFnOf pubTestOut.body = none) ∧
    (benchOut.name = benchInput.name ∧ benchOut.ret = benchInput.ret ∧
      benchOut.attrs = "#[bench]" :: benchInput.attrs ∧
      benchOut.body = .benchIter benchInput.body ∧
      innerFnOf benchOut.body = none) :=
  ⟨c8_wrapper_shapes.1 false [] mainInput outDefault (by decide),
   c8_wrapper_shapes.2.1 pubTestInput pubTestOut (by decide),
   c8_wrapper_shapes.2.2 benchInput benchOut (by decide)⟩

/-- C9 counterexample: the test macro applied to a `pub` function produces
an outer function with no visibility qualifier — the input's visibility is
not passed through. -/
theorem c9_visibility_cex :
    testMacro pubTestInput = .output pubTestOut ∧
    pubTestInput.vis = some "pub" ∧
    pubTestOut.vis = none ∧
    (some "pub" ≠ (none : Option String)) :=
  ⟨by decide, rfl, rfl, by decide⟩

/-- C9 (amended): in every synthesis mode the generated outer function
carries no visibility qualifier at all — the templates never emit the
input's visibility, so a non-default input visibility is dropped rather
than passed through. -/
theorem c9_visibility_dropped :
    (∀ (auto : Bool) (args : List NestedMeta) (input : FnDecl) (f : OuterFn),
      mainMacro auto args input = .output f → f.vis = none) ∧
    (∀ (input : FnDecl) (f : OuterFn), testMacro input = .output f → f.vis = none) ∧
    (∀ (input : FnDecl) (f : OuterFn), benchMacro input = .output f → f.vis = none) := by
  refine ⟨fun auto args input f h => (mainMacro_output_inv h).2.1,
          fun input f h => ?_, fun input f h => ?_⟩
  · rw [testMacro_output_inv h]
  · rw [benchMacro_output_inv h]

/-- C9 witness: the amended theorem applied to a `pub async fn my_test`. -/
theorem c9_visibility_dropped_witness :
    pubTestOut.vis = none ∧ testMacro pubTestInput = .output pubTestOut :=
  ⟨c9_visibility_dropped.2.1 pubTestInput pubTestOut (by decide), by decide⟩

/-- Any `threads` value the argument loop stores came from a successful
`u32` parse, so it is bounded — or was already present in the
accumulator. -/
theorem processArgs_ok_bound (args : List NestedMeta) :
    ∀ (t : Option Nat) (n : Nat), processArgs t args = .ok (some n) →
      n < 2 ^ 32 ∨ t = some n := by
  induction args with
  | nil =>
    intro t n h
    right
    simp only [processArgs] at h
    injection h with h
  | cons a rest ih =>
    intro t n h
    cases a with
    | other s => simp [processArgs] at h
    | nameValue nv =>
      obtain ⟨pi, ks, l, ps⟩ := nv
      cases pi with
      | none => simp [processArgs] at h
      | some k =>
        simp only [processArgs] at h
        split at h
        · cases l with
          | int v ls =>
            dsimp only at h
            cases hb : base10ParseU32 v with
            | none => rw [hb] at h; exact absurd h (by simp)
            | some num =>
              rw [hb] at h
              have hv : v < 2 ^ 32 ∧ num = v := by
                simp only [base10ParseU32] at hb
                split at hb
                · exact ⟨by assumption, by injection hb with hb; exact hb.symm⟩
                · exact absurd hb (by simp)
              rcases ih _ n h with hlt | heq
              · exact Or.inl hlt
              · by_cases hgt : num > 1
                · rw [if_pos hgt] at heq
                  injection heq with heq
                  subst heq
                  exact Or.inl (hv.2 ▸ hv.1)
                · rw [if_neg hgt] at heq
                  exact Or.inr heq
          | other ls =>
            dsimp only at h
            exact absurd h (by simp)
        · exact absurd h (by simp)

/-- C10: the `threads` parse-and-unwrap step is total exactly on `u32`
values: an integer literal with value below `2^32` resolves without
panicking (to `Fixed(v)` exactly when `v > 1`), so every accepted thread
count is below `2^32`; a literal at or above `2^32` makes the whole
expansion panic instead of producing a located diagnostic. -/
theorem c10_u32_bound :
    (∀ (args : List NestedMeta) (n : Nat),
      processArgs none args = .ok (some n) → n < 2 ^ 32) ∧
    (∀ (v : Nat) (ks ls ps : Span) (t : Option Nat),
      processArgs t [threadsIntArg v ks ls ps] =
        if v < 2 ^ 32 then ArgsResult.ok (if v > 1 then some v else t)
        else ArgsResult.panicked) ∧
    (∀ (auto : Bool) (input : FnDecl) (v : Nat) (ks ls ps : Span), 2 ^ 32 ≤ v →
      mainMacro auto [threadsIntArg v ks ls ps] input = .panicked) := by
  refine ⟨fun args n h => ?_, fun v ks ls ps t => ?_, fun auto input v ks ls ps hv => ?_⟩
  · rcases processArgs_ok_bound args none n h with hlt | heq
    · exact hlt
    · exact absurd heq (by simp)
  · by_cases hv : v < 2 ^ 32
    · rw [if_pos hv]
      have hb : base10ParseU32 v = some v := by
        simp only [base10ParseU32]
        rw [if_pos hv]
      simp [processArgs, threadsIntArg, lowerString_threads, hb]
    · rw [if_neg hv]
      have hb : base10ParseU32 v = none := by
        simp only [base10ParseU32]
        rw [if_neg hv]
      simp [processArgs, threadsIntArg, lowerString_threads, hb]
  · have hb : base10ParseU32 v = none := by
      simp only [base10ParseU32]
      rw [if_neg (not_lt.mpr hv)]
    simp [mainMacro, processArgs, threadsIntArg, lowerString_threads, hb]

/-- C10 witness: the bound applied to `threads = 5`, and the panic applied
to `threads = 2^32` on a well-shaped `async fn main`. -/
theorem c10_u32_bound_witness :
    (5 : Nat) < 2 ^ 32 ∧
    mainMacro false [threadsIntArg (2 ^ 32) 0 1 2] mainInput = .panicked :=
  ⟨c10_u32_bound.1 [threadsIntArg 5 0 1 2] 5 (by decide),
   c10_u32_bound.2.2 false mainInput (2 ^ 32) 0 1 2 (le_refl _)⟩

end SmolPotat
